import Mathlib

/-!
Verification of the discordgpt response-orchestration loop.

The definitions below are a shallow embedding of `src/index.ts` (the current
variant of the bot) together with the two older variants kept in the
repository.  Texts are modelled as `List Char`, Discord messages as records
carrying only the fields the orchestration logic reads (`id`,
`createdTimestamp`), and the two external collaborators (the Discord
gateway and the OpenAI completion service) as explicit inputs: the gateway
as a channel given by its ascending list of messages, the completion
service as an oracle mapping the attempt index to the response of the
completion call issued on that attempt.
-/

namespace DiscordGPT

/-- A Discord message as seen by the orchestration core: its snowflake id
and its creation timestamp.  Snowflake ids are monotone in creation time,
so in concrete channels below `id = createdTimestamp`. -/
structure Msg where
  id : Nat
  createdTimestamp : Nat
deriving DecidableEq

/-- Model of `message.channel.messages.fetch({limit, before})`: the channel
is its full list of messages in ascending id order; the gateway returns up
to `limit` messages strictly before the message with id `before` (all
messages when `before` is absent), newest first. -/
def fetchHistory (channel : List Msg) (limit : Nat) (before : Option Nat) : List Msg :=
  match before with
  | some b => ((channel.filter (fun m => m.id < b)).reverse).take limit
  | none => (channel.reverse).take limit

/-- The comparator `(a, b) => a.createdTimestamp - b.createdTimestamp`
used by `Array.prototype.sort` in the source, as a Bool relation. -/
def tsLe (a b : Msg) : Bool := a.createdTimestamp ≤ b.createdTimestamp

/-- Insert a message into a timestamp-sorted list, keeping it before any
later element with an equal timestamp (stability, as guaranteed by the
JavaScript engine sort). -/
def insertTs (m : Msg) : List Msg → List Msg
  | [] => [m]
  | x :: xs => if tsLe m x then m :: x :: xs else x :: insertTs m xs

/-- `history.sort((a, b) => a.createdTimestamp - b.createdTimestamp)`:
stable ascending sort by creation timestamp. -/
def sortByTimestamp : List Msg → List Msg
  | [] => []
  | x :: xs => insertTs x (sortByTimestamp xs)

/-- The argument record of one gateway fetch issued while processing a
`get_messages` tool call: the raw `limit` as parsed from the tool-call
arguments JSON (an arbitrary integer, no validation in the code) and the
`before` anchor id. -/
structure FetchCall where
  limit : Int
  before : Option Nat
deriving DecidableEq

/-- `src/index.ts` lines 250-258: processing of one `get_messages`
tool-call item.  The fetch is anchored at
`history[history.length - 1]?.id` (the LAST element of the ascending
list), the fetched batch is prepended and the union re-sorted by
timestamp.  No deduplication is performed.  Returns the new history
together with the fetch-call record passed to the gateway. -/
def processGetMessages (channel history : List Msg) (limit : Int) :
    List Msg × FetchCall :=
  let anchor : Option Nat := (history.getLast?).map Msg.id
  (sortByTimestamp (fetchHistory channel limit.toNat anchor ++ history),
   ⟨limit, anchor⟩)

/-! ## Reply chunking (`src/index.ts` lines 225-234)

`for (let i = 0; i < text.length; i += 2000)` sending
`text.slice(i, i + 2000)` each iteration, the first via `message.reply`,
the rest via `channel.send`.  The loop is embedded with a fuel argument
equal to the text length, which strictly dominates the number of
iterations. -/

/-- One loop iteration takes the next up-to-2000-character slice; the fuel
only bounds the recursion depth and never binds at `fuel = 0` when it
starts at the text length. -/
def chunkAux : Nat → List Char → List (List Char)
  | 0, _ => []
  | _ + 1, [] => []
  | fuel + 1, c :: cs => ((c :: cs).take 2000) :: chunkAux fuel ((c :: cs).drop 2000)

/-- The list of chunks the dispatch loop sends, in order. -/
def chunkList (cs : List Char) : List (List Char) := chunkAux cs.length cs

/-- The messages actually dispatched: `replies` via `message.reply` (the
`i = 0` branch), `sends` via `channel.send` (all later iterations). -/
structure Dispatch where
  replies : List (List Char)
  sends : List (List Char)
deriving DecidableEq

/-- The dispatch of a terminal answer: first chunk as a reply, the rest as
plain channel sends, nothing at all when there is no chunk. -/
def dispatchAnswer (cs : List Char) : Dispatch :=
  match chunkList cs with
  | [] => ⟨[], []⟩
  | c :: rest => ⟨[c], rest⟩

theorem chunkAux_flatten :
    ∀ (fuel : Nat) (cs : List Char), cs.length ≤ fuel →
      (chunkAux fuel cs).flatten = cs := by
  intro fuel
  induction fuel with
  | zero =>
    intro cs h
    have hnil : cs = [] := List.eq_nil_of_length_eq_zero (Nat.le_zero.mp h)
    subst hnil
    rfl
  | succ n ih =>
    intro cs h
    match cs with
    | [] => rfl
    | c :: cs' =>
      have hdrop : ((c :: cs').drop 2000).length ≤ n := by
        rw [List.length_drop]
        simp only [List.length_cons] at h ⊢
        omega
      simp only [chunkAux, List.flatten_cons, ih _ hdrop]
      exact List.take_append_drop 2000 (c :: cs')

theorem chunkAux_mem_le :
    ∀ (fuel : Nat) (cs chunk : List Char), chunk ∈ chunkAux fuel cs →
      chunk.length ≤ 2000 := by
  intro fuel
  induction fuel with
  | zero =>
    intro cs chunk h
    simp [chunkAux] at h
  | succ n ih =>
    intro cs chunk h
    match cs with
    | [] => simp [chunkAux] at h
    | c :: cs' =>
      simp only [chunkAux, List.mem_cons] at h
      rcases h with h | h
      · subst h
        rw [List.length_take]
        exact min_le_left _ _
      · exact ih _ _ h

/-- Claim C7: the dispatched chunks are consecutive substrings of length
at most 2000, their in-order concatenation reproduces the original text
exactly, the first chunk (when any) goes out as the reply to the
triggering message and all later chunks as plain follow-up sends, for
every text, including lengths 0, 2000 and 2001. -/
theorem reply_chunking_roundtrip (cs : List Char) :
    (∀ chunk ∈ chunkList cs, chunk.length ≤ 2000)
      ∧ (chunkList cs).flatten = cs
      ∧ (dispatchAnswer cs).replies = (chunkList cs).take 1
      ∧ (dispatchAnswer cs).sends = (chunkList cs).drop 1 := by
  refine ⟨fun chunk h => chunkAux_mem_le _ _ _ h,
          chunkAux_flatten _ _ (Nat.le_refl _), ?_, ?_⟩ <;>
    · unfold dispatchAnswer
      cases chunkList cs <;> rfl

/-- Claim C7, witness: the round-trip and dispatch shape evaluated at a
2001-character text via the general theorem. -/
theorem reply_chunking_roundtrip_witness :
    (chunkList (List.replicate 2001 'a')).flatten = List.replicate 2001 'a'
      ∧ (dispatchAnswer (List.replicate 2001 'a')).replies
          = (chunkList (List.replicate 2001 'a')).take 1 :=
  ⟨(reply_chunking_roundtrip (List.replicate 2001 'a')).2.1,
   (reply_chunking_roundtrip (List.replicate 2001 'a')).2.2.1⟩

/-! ## Orchestration loop (`src/index.ts` lines 151-262)

`for (let attempt = 0; attempt <= 2; attempt++)`.  The completion service
is an oracle from the attempt index to the outcome of the one completion
call issued on that attempt; a run collects the records of the completion
calls (attempt index, whether the tool declaration was offered, model
string), the gateway fetches triggered by tool calls, and every outbound
message. -/

/-- One item of `response.output`: either a function-call item with its
name and the `limit` integer its arguments JSON parses to, or any other
item kind. -/
inductive OutputItem where
  | functionCall (name : String) (limit : Int)
  | other
deriving DecidableEq

/-- A successful completion response: its output items and its
`output_text`. -/
structure CompletionResponse where
  output : List OutputItem
  outputText : List Char
deriving DecidableEq

/-- Outcome of `guard(() => openai.responses.create(...))`: a response or
a captured error value with its message. -/
inductive CompletionResult where
  | ok (resp : CompletionResponse)
  | err (message : List Char)
deriving DecidableEq

/-- Record of one completion call as issued: the attempt index it was
issued on, whether the `get_messages` tool declaration was attached
(`attempt < 2` spread in the source), and the `model` string passed. -/
structure CallRecord where
  attempt : Nat
  toolsOffered : Bool
  model : String
deriving DecidableEq

/-- Everything externally observable about one run: completion calls
issued, gateway fetches performed for tool calls, texts sent through
`message.reply` and through `channel.send`, in order. -/
structure RunResult where
  calls : List CallRecord
  fetches : List FetchCall
  replies : List (List Char)
  sends : List (List Char)
deriving DecidableEq

/-- `item.type === "function_call" && item.name === "get_messages"`. -/
def isGetMessagesCall : OutputItem → Bool
  | .functionCall n _ => n == "get_messages"
  | .other => false

/-- Tool-call processing over a whole response output
(`response.output.map(...)` under `Promise.all`): every `get_messages`
item triggers one fetch-and-merge.  The callbacks all read the shared
history variable; merging older messages never changes the last element
of the ascending list, so the sequential fold below issues the same
anchored fetches and reaches the same final set as the concurrent
original. -/
def processToolCalls (channel : List Msg) (output : List OutputItem)
    (history : List Msg) : List Msg × List FetchCall :=
  output.foldl
    (fun acc item =>
      match item with
      | .functionCall n lim =>
        if n == "get_messages" then
          ((processGetMessages channel acc.1 lim).1,
           acc.2 ++ [(processGetMessages channel acc.1 lim).2])
        else acc
      | .other => acc)
    (history, [])

/-- The attempt loop.  `fuel` counts the loop iterations still allowed;
the loop guard `attempt <= 2` of the source is represented by starting
`runLoop` with fuel 3 at attempt 0, so that fuel runs out exactly when
`attempt` passes 2 (the invariant `attempt + fuel = 3` is maintained).
Per iteration: issue one completion call (taking its outcome from the
oracle at the current attempt index); on a captured error, reply with
the error message verbatim and stop; on a response without a
`get_messages` function call, chunk-dispatch `output_text` and stop;
otherwise process the tool calls into the history and continue with the
next attempt. -/
def runAttempt (oracle : Nat → CompletionResult) (channel : List Msg)
    (model : String) : Nat → Nat → List Msg → RunResult
  | 0, _, _ => ⟨[], [], [], []⟩
  | fuel + 1, attempt, history =>
    let call : CallRecord := ⟨attempt, decide (attempt < 2), model⟩
    match oracle attempt with
    | .err m => ⟨[call], [], [m], []⟩
    | .ok resp =>
      if resp.output.any isGetMessagesCall then
        let p := processToolCalls channel resp.output history
        let rest := runAttempt oracle channel model fuel (attempt + 1) p.1
        ⟨call :: rest.calls, p.2 ++ rest.fetches, rest.replies, rest.sends⟩
      else
        let d := dispatchAnswer resp.outputText
        ⟨[call], [], d.replies, d.sends⟩

/-- The full attempt loop of one response cycle: three iterations of fuel
starting at attempt 0 on the seed history. -/
def runLoop (oracle : Nat → CompletionResult) (channel : List Msg)
    (model : String) (seed : List Msg) : RunResult :=
  runAttempt oracle channel model 3 0 seed

/-- The model-tier enum `modelList` of the source. -/
def modelEnum : List String :=
  ["gpt-5-nano", "gpt-5-mini", "gpt-5.2", "gpt-5.1-codex"]

/-- Outcome of `guard(() => openai.responses.parse(...))` for model
selection: a captured error with its message, or a response whose
`output_parsed` may be missing (`Option`). -/
inductive SelectionResult where
  | ok (outputParsed : Option String)
  | err (message : List Char)

/-- The response cycle after intake (`src/index.ts` lines 108-262): on a
selection error, reply with exactly the error message and issue no
completion call; otherwise run the attempt loop, passing
`selectResponse.output_parsed?.model ?? modelList[0]` as the model of
every completion call. -/
def messageCycle (sel : SelectionResult) (oracle : Nat → CompletionResult)
    (channel seed : List Msg) : RunResult :=
  match sel with
  | .err m => ⟨[], [], [m], []⟩
  | .ok parsed => runLoop oracle channel (parsed.getD (modelEnum.headD "")) seed

/-! ## Prompt extraction (`src/index.ts` lines 103-106) -/

/-- `message.content.slice(message.content.startsWith(prefix) ?
prefix.length : 0)`: the mention token is dropped when it literally leads
the content; no whitespace trimming is applied. -/
def promptOf (pfx content : List Char) : List Char :=
  content.drop (if pfx.isPrefixOf content then pfx.length else 0)

/-- The accepted-message path: `if (prompt.length === 0) return;` guards
the whole cycle, so an empty extracted prompt ends the handler with no
outbound message and no service call at all. -/
def acceptedCycle (pfx content : List Char) (sel : SelectionResult)
    (oracle : Nat → CompletionResult) (channel seed : List Msg) : RunResult :=
  if (promptOf pfx content).length = 0 then ⟨[], [], [], []⟩
  else messageCycle sel oracle channel seed

/-! ## Context text assembly (`src/index.ts` lines 33-41) -/

/-- `String.prototype.trimStart` on the character-list model. -/
def trimStartChars : List Char → List Char
  | [] => []
  | c :: cs => if c.isWhitespace then trimStartChars cs else c :: cs

/-- The third line of `buildTextFromDiscordMessage`: the message body with
the mention token stripped and the remainder left-trimmed when the token
literally leads the content, the content unchanged otherwise. -/
def strippedBody (pfx content : List Char) : List Char :=
  if pfx.isPrefixOf content then trimStartChars (content.drop pfx.length)
  else content

/-- `buildTextFromDiscordMessage(m, prefix)`: the three lines
`from: <displayName>`, `time: <ISO timestamp>` and the body, joined by
newlines. -/
def buildTextFromDiscordMessage (displayName timeIso pfx content : List Char) :
    List Char :=
  ("from: ".toList ++ displayName)
    ++ '\n' :: (("time: ".toList ++ timeIso) ++ '\n' :: strippedBody pfx content)

/-- The fixed from/time header the body is appended to. -/
def headerBlock (displayName timeIso : List Char) : List Char :=
  ("from: ".toList ++ displayName)
    ++ '\n' :: (("time: ".toList ++ timeIso) ++ ['\n'])

/-! ## Top-level catch (`src/index.ts` lines 263-267 and the part_000
variant lines 250-254) -/

/-- A value reaching the catch block: an `Error` instance carrying its
message, or any non-`Error` thrown value. -/
inductive Thrown where
  | errorInstance (message : List Char)
  | nonErrorValue

/-- `err instanceof Error ? err.message : "An unexpected error occurred."`
from the catch block of `src/index.ts`. -/
def unexpectedErrorReply : Thrown → List Char
  | .errorInstance m => m
  | .nonErrorValue => "An unexpected error occurred.".toList

/-- The catch block of the `part_000` variant: a fixed apology whatever
was thrown. -/
def unexpectedErrorReplyVariant (_ : Thrown) : List Char :=
  "An unexpected error occurred. Please try again later.".toList

/-! ## Concrete inputs

A channel of ten messages with `id = createdTimestamp = 1..10` and the
working history an orchestration actually holds after the initial seed
fetch: the triggering message (id 10) plus the five messages preceding
it, ascending. -/

def chan10 : List Msg :=
  [⟨1, 1⟩, ⟨2, 2⟩, ⟨3, 3⟩, ⟨4, 4⟩, ⟨5, 5⟩, ⟨6, 6⟩, ⟨7, 7⟩, ⟨8, 8⟩, ⟨9, 9⟩, ⟨10, 10⟩]

def hist5 : List Msg :=
  [⟨5, 5⟩, ⟨6, 6⟩, ⟨7, 7⟩, ⟨8, 8⟩, ⟨9, 9⟩, ⟨10, 10⟩]

/-! ## Loop invariants -/

theorem runAttempt_succ_err (oracle : Nat → CompletionResult)
    (channel : List Msg) (model : String) (fuel attempt : Nat)
    (history : List Msg) (m : List Char) (h : oracle attempt = .err m) :
    runAttempt oracle channel model (fuel + 1) attempt history
      = ⟨[⟨attempt, decide (attempt < 2), model⟩], [], [m], []⟩ := by
  unfold runAttempt
  rw [h]

theorem runAttempt_succ_tool (oracle : Nat → CompletionResult)
    (channel : List Msg) (model : String) (fuel attempt : Nat)
    (history : List Msg) (resp : CompletionResponse)
    (h : oracle attempt = .ok resp)
    (htool : resp.output.any isGetMessagesCall = true) :
    runAttempt oracle channel model (fuel + 1) attempt history
      = ⟨(⟨attempt, decide (attempt < 2), model⟩ : CallRecord)
            :: (runAttempt oracle channel model fuel (attempt + 1)
                  (processToolCalls channel resp.output history).1).calls,
         (processToolCalls channel resp.output history).2
            ++ (runAttempt oracle channel model fuel (attempt + 1)
                  (processToolCalls channel resp.output history).1).fetches,
         (runAttempt oracle channel model fuel (attempt + 1)
            (processToolCalls channel resp.output history).1).replies,
         (runAttempt oracle channel model fuel (attempt + 1)
            (processToolCalls channel resp.output history).1).sends⟩ := by
  conv_lhs => unfold runAttempt
  rw [h]
  simp [htool]

theorem runAttempt_succ_answer (oracle : Nat → CompletionResult)
    (channel : List Msg) (model : String) (fuel attempt : Nat)
    (history : List Msg) (resp : CompletionResponse)
    (h : oracle attempt = .ok resp)
    (htool : ¬ resp.output.any isGetMessagesCall = true) :
    runAttempt oracle channel model (fuel + 1) attempt history
      = ⟨[⟨attempt, decide (attempt < 2), model⟩], [],
         (dispatchAnswer resp.outputText).replies,
         (dispatchAnswer resp.outputText).sends⟩ := by
  conv_lhs => unfold runAttempt
  rw [h]
  simp [htool]

theorem runAttempt_calls_spec (oracle : Nat → CompletionResult)
    (channel : List Msg) (model : String) :
    ∀ (fuel attempt : Nat) (history : List Msg), attempt + fuel ≤ 3 →
      ∀ c ∈ (runAttempt oracle channel model fuel attempt history).calls,
        c.attempt ≤ 2 ∧ (c.toolsOffered = true ↔ c.attempt < 2) := by
  intro fuel
  induction fuel with
  | zero =>
    intro attempt history _ c hc
    simp [runAttempt] at hc
  | succ n ih =>
    intro attempt history hle c hc
    have hatt : attempt ≤ 2 := by omega
    have hhead : c = (⟨attempt, decide (attempt < 2), model⟩ : CallRecord) →
        c.attempt ≤ 2 ∧ (c.toolsOffered = true ↔ c.attempt < 2) := by
      intro h
      subst h
      exact ⟨hatt, by simp⟩
    cases horacle : oracle attempt with
    | err m =>
      rw [runAttempt_succ_err oracle channel model n attempt history m horacle] at hc
      simp only [List.mem_singleton] at hc
      exact hhead hc
    | ok resp =>
      by_cases htool : resp.output.any isGetMessagesCall
      · rw [runAttempt_succ_tool oracle channel model n attempt history resp
            horacle htool] at hc
        simp only [List.mem_cons] at hc
        rcases hc with hc | hc
        · exact hhead hc
        · exact ih (attempt + 1) _ (by omega) c hc
      · rw [runAttempt_succ_answer oracle channel model n attempt history resp
            horacle htool] at hc
        simp only [List.mem_singleton] at hc
        exact hhead hc

theorem runAttempt_calls_model (oracle : Nat → CompletionResult)
    (channel : List Msg) (model : String) :
    ∀ (fuel attempt : Nat) (history : List Msg),
      ∀ c ∈ (runAttempt oracle channel model fuel attempt history).calls,
        c.model = model := by
  intro fuel
  induction fuel with
  | zero =>
    intro attempt history c hc
    simp [runAttempt] at hc
  | succ n ih =>
    intro attempt history c hc
    cases horacle : oracle attempt with
    | err m =>
      rw [runAttempt_succ_err oracle channel model n attempt history m horacle] at hc
      simp only [List.mem_singleton] at hc
      subst hc
      rfl
    | ok resp =>
      by_cases htool : resp.output.any isGetMessagesCall
      · rw [runAttempt_succ_tool oracle channel model n attempt history resp
            horacle htool] at hc
        simp only [List.mem_cons] at hc
        rcases hc with hc | hc
        · subst hc; rfl
        · exact ih (attempt + 1) _ c hc
      · rw [runAttempt_succ_answer oracle channel model n attempt history resp
            horacle htool] at hc
        simp only [List.mem_singleton] at hc
        subst hc
        rfl

theorem trimStartChars_isDrop :
    ∀ cs : List Char, ∃ k, trimStartChars cs = cs.drop k := by
  intro cs
  induction cs with
  | nil => exact ⟨0, rfl⟩
  | cons c cs ih =>
    by_cases hw : c.isWhitespace
    · obtain ⟨k, hk⟩ := ih
      exact ⟨k + 1, by simp [trimStartChars, hw, hk]⟩
    · exact ⟨0, by simp [trimStartChars, hw]⟩

/-! ## Claim theorems -/

/-- Claim C1, evaluated at the failing input (channel `chan10`, current
history `hist5`, tool-call limit 3): the fetch issued while processing
the `get_messages` call is anchored at the LAST element of the ascending
history (id 10, the maximum-timestamp message), not at its earliest
(minimum-timestamp) element (id 5, the head), and the fetched batch
[9, 8, 7] is not strictly older than that earliest known message — the
code re-fetches messages it already holds instead of extending the
history backwards. -/
theorem expansion_anchor_not_earliest_eval :
    (processGetMessages chan10 hist5 3).2.before = some 10
      ∧ hist5.head? = some ⟨5, 5⟩
      ∧ hist5.getLast? = some ⟨10, 10⟩
      ∧ fetchHistory chan10 3 (some 10) = [⟨9, 9⟩, ⟨8, 8⟩, ⟨7, 7⟩]
      ∧ ¬ (∀ m ∈ fetchHistory chan10 3 (some 10), m.createdTimestamp < 5) := by
  refine ⟨rfl, rfl, rfl, by decide, by decide⟩

/-- Claim C2, evaluated at the failing input: merging the batch fetched
for `get_messages(limit = 3)` into `hist5` yields a history whose id
sequence is [5, 6, 7, 7, 8, 8, 9, 9, 10] — ascending by timestamp (that
half of the invariant holds) but with ids 7, 8 and 9 duplicated, because
the code sorts the union without any deduplication. -/
theorem merge_not_duplicate_free_eval :
    (processGetMessages chan10 hist5 3).1.map Msg.id = [5, 6, 7, 7, 8, 8, 9, 9, 10]
      ∧ ¬ ((processGetMessages chan10 hist5 3).1.map Msg.id).Nodup
      ∧ (((processGetMessages chan10 hist5 3).1.map Msg.id).count 9 = 2)
      ∧ List.Pairwise (fun a b => a.createdTimestamp ≤ b.createdTimestamp)
          (processGetMessages chan10 hist5 3).1 := by
  refine ⟨by decide, by decide, by decide, by decide⟩

/-- Claim C3: in every run of the attempt loop, whatever the completion
service does, every completion call issued carries an attempt index at
most 2, and the `get_messages` tool declaration is attached to the call
exactly when the attempt index is below 2 — so it is offered on attempts
0 and 1 and withheld on attempt 2. -/
theorem attempt_counter_bounded_and_tool_gating
    (oracle : Nat → CompletionResult) (channel : List Msg) (model : String)
    (seed : List Msg) (c : CallRecord)
    (hc : c ∈ (runLoop oracle channel model seed).calls) :
    c.attempt ≤ 2 ∧ (c.toolsOffered = true ↔ c.attempt < 2) :=
  runAttempt_calls_spec oracle channel model 3 0 seed (by omega) c hc

/-- Claim C3, witness: under an oracle that requests `get_messages` on
every attempt, the loop issues exactly three calls and the third one (at
attempt index 2, with the tool withheld) satisfies the bound and the
gating equivalence. -/
theorem attempt_counter_bounded_and_tool_gating_witness :
    (⟨2, false, "gpt-5.2"⟩ : CallRecord).attempt ≤ 2
      ∧ ((⟨2, false, "gpt-5.2"⟩ : CallRecord).toolsOffered = true
          ↔ (⟨2, false, "gpt-5.2"⟩ : CallRecord).attempt < 2) :=
  attempt_counter_bounded_and_tool_gating
    (fun _ => .ok ⟨[.functionCall "get_messages" 5], []⟩) [] "gpt-5.2" []
    ⟨2, false, "gpt-5.2"⟩ (by decide)

/-- Claim C4, counterexample: when the selection call succeeds but its
structured output is missing (`output_parsed` absent), the orchestration
does NOT abort — a completion call is issued, with the first enum entry
gpt-5-nano silently substituted as the model — and the cycle answers
normally, contrary to the claim that a missing parsed value is a hard
error with no completion call and no silent default. -/
theorem selection_missing_output_not_hard_error :
    (messageCycle (.ok none) (fun _ => .ok ⟨[], "hi".toList⟩) [] []).calls
        = [⟨0, true, "gpt-5-nano"⟩]
      ∧ (messageCycle (.ok none) (fun _ => .ok ⟨[], "hi".toList⟩) [] []).replies
        = ["hi".toList] := by
  refine ⟨by decide, by decide⟩

/-- Claim C4 as amended: if the model-selection CALL fails (returns an
error), the orchestration aborts as a hard error, the failure reason is
sent verbatim as the only reply, the selection call is never retried and
no completion call is ever issued; but when the call succeeds with a
missing parsed value, the cycle proceeds and every completion call it
issues silently uses the default model gpt-5-nano (the first enum
entry). -/
theorem selection_error_aborts_amended (e : List Char)
    (oracle : Nat → CompletionResult) (channel seed : List Msg) :
    (messageCycle (.err e) oracle channel seed).calls = []
      ∧ (messageCycle (.err e) oracle channel seed).replies = [e]
      ∧ (messageCycle (.err e) oracle channel seed).fetches = []
      ∧ ∀ c ∈ (messageCycle (.ok none) oracle channel seed).calls,
          c.model = "gpt-5-nano" :=
  ⟨rfl, rfl, rfl, fun c hc =>
    runAttempt_calls_model oracle channel "gpt-5-nano" 3 0 seed c hc⟩

/-- Claim C4, witness: the amended statement applied at a concrete
selection error and a concrete run with the parsed value missing. -/
theorem selection_error_aborts_amended_witness :
    (messageCycle (.err "boom".toList)
        (fun _ => .ok ⟨[], "hi".toList⟩) [] []).calls = []
      ∧ (messageCycle (.err "boom".toList)
          (fun _ => .ok ⟨[], "hi".toList⟩) [] []).replies = ["boom".toList]
      ∧ (⟨0, true, "gpt-5-nano"⟩ : CallRecord).model = "gpt-5-nano" :=
  ⟨(selection_error_aborts_amended "boom".toList
      (fun _ => .ok ⟨[], "hi".toList⟩) [] []).1,
   (selection_error_aborts_amended "boom".toList
      (fun _ => .ok ⟨[], "hi".toList⟩) [] []).2.1,
   (selection_error_aborts_amended "boom".toList
      (fun _ => .ok ⟨[], "hi".toList⟩) [] []).2.2.2
     ⟨0, true, "gpt-5-nano"⟩ (by decide)⟩

/-- Claim C5, counterexample: when the value thrown during the cycle is
an `Error` instance, the catch block of `src/index.ts` replies with the
exception message itself — here a concrete internal connection string —
and not with the generic apology, so internal detail is leaked. -/
theorem unexpected_error_leaks_message :
    unexpectedErrorReply (.errorInstance "ECONNREFUSED 127.0.0.1:5432".toList)
        = "ECONNREFUSED 127.0.0.1:5432".toList
      ∧ unexpectedErrorReply (.errorInstance "ECONNREFUSED 127.0.0.1:5432".toList)
        ≠ "An unexpected error occurred.".toList := by
  refine ⟨rfl, by decide⟩

/-- Claim C5 as amended: the exception is caught once at the top level of
the cycle, but in `src/index.ts` the user receives the exception message
itself whenever the thrown value is an `Error` instance; the generic
apology is sent only for non-`Error` thrown values.  Only the older
`part_000` variant always replies with a fixed generic apology. -/
theorem unexpected_error_reply_amended (m : List Char) (t : Thrown) :
    unexpectedErrorReply (.errorInstance m) = m
      ∧ unexpectedErrorReply .nonErrorValue = "An unexpected error occurred.".toList
      ∧ unexpectedErrorReplyVariant t
        = "An unexpected error occurred. Please try again later.".toList :=
  ⟨rfl, rfl, rfl⟩

/-- Claim C6, counterexample: for content consisting of the mention token
followed by a single space, the stripped-and-trimmed prompt is empty, yet
the handler does not ignore the message — the extracted prompt is the
untrimmed single space, the length check passes, and under a completion
service answering "ok" a reply IS sent. -/
theorem untrimmed_prompt_not_ignored :
    trimStartChars (promptOf "<@1>".toList "<@1> ".toList) = []
      ∧ promptOf "<@1>".toList "<@1> ".toList = [' ']
      ∧ (acceptedCycle "<@1>".toList "<@1> ".toList (.ok (some "gpt-5-mini"))
          (fun _ => .ok ⟨[], "ok".toList⟩) [] []).replies = ["ok".toList] := by
  refine ⟨by decide, by decide, by decide⟩

/-- Claim C6 as amended: the prompt is the content with the leading
mention token stripped but with NO left-whitespace trimming; only when
that untrimmed stripped prompt is empty is the message silently ignored —
no reply, no send, no service call, no error.  A prompt consisting of
whitespace alone is processed normally. -/
theorem empty_prompt_silently_ignored_amended (pfx content : List Char)
    (sel : SelectionResult) (oracle : Nat → CompletionResult)
    (channel seed : List Msg) (h : promptOf pfx content = []) :
    acceptedCycle pfx content sel oracle channel seed
      = (⟨[], [], [], []⟩ : RunResult) := by
  unfold acceptedCycle
  rw [h]
  rfl

/-- Claim C6, witness: a message whose content is exactly the mention
token is silently ignored. -/
theorem empty_prompt_silently_ignored_amended_witness :
    acceptedCycle "<@1>".toList "<@1>".toList (.ok (some "gpt-5-mini"))
        (fun _ => .ok ⟨[], "ok".toList⟩) [] []
      = (⟨[], [], [], []⟩ : RunResult) :=
  empty_prompt_silently_ignored_amended "<@1>".toList "<@1>".toList
    (.ok (some "gpt-5-mini")) (fun _ => .ok ⟨[], "ok".toList⟩) [] [] (by decide)

/-- Claim C8: `buildTextFromDiscordMessage` strips only a literal leading
occurrence of the mention token.  When the content does not start with
the token, the body line is the content unchanged (and the whole built
text is the from/time header followed by that unchanged content); in
every case the body is a contiguous suffix of the content, so
occurrences of the token elsewhere in the text are never removed or
replaced. -/
theorem leading_mention_strip_only (displayName timeIso pfx content : List Char) :
    (pfx.isPrefixOf content = false →
        strippedBody pfx content = content
          ∧ buildTextFromDiscordMessage displayName timeIso pfx content
              = headerBlock displayName timeIso ++ content)
      ∧ (∃ k, strippedBody pfx content = content.drop k) := by
  constructor
  · intro h
    have hbody : strippedBody pfx content = content := by
      simp [strippedBody, h]
    refine ⟨hbody, ?_⟩
    simp [buildTextFromDiscordMessage, headerBlock, hbody, List.append_assoc]
  · by_cases h : pfx.isPrefixOf content
    · obtain ⟨k, hk⟩ := trimStartChars_isDrop (content.drop pfx.length)
      refine ⟨pfx.length + k, ?_⟩
      simp [strippedBody, h, hk, List.drop_drop, Nat.add_comm]
    · exact ⟨0, by simp [strippedBody, h]⟩

/-- Claim C8, witness: a mention token quoted mid-text survives untouched
and the built text is the header followed by the unchanged content. -/
theorem leading_mention_strip_only_witness :
    strippedBody "<@1>".toList "see <@1> quoted".toList = "see <@1> quoted".toList
      ∧ buildTextFromDiscordMessage "alice".toList "2025-01-01".toList
          "<@1>".toList "see <@1> quoted".toList
        = headerBlock "alice".toList "2025-01-01".toList
            ++ "see <@1> quoted".toList :=
  (leading_mention_strip_only "alice".toList "2025-01-01".toList
    "<@1>".toList "see <@1> quoted".toList).1 (by decide)

/-- Claim C9: the orchestrator applies no range validation to the
tool-call limit: for any integer parsed from the arguments JSON — in
particular any value outside [1, 20] — the gateway fetch issued while
processing the call carries exactly that value, anchored at the last
history element, with no clamping or guard at the call site. -/
theorem tool_limit_forwarded_unchecked (channel history : List Msg)
    (limit : Int) (_h : limit < 1 ∨ 20 < limit) :
    (processGetMessages channel history limit).2.limit = limit
      ∧ (processGetMessages channel history limit).2.before
        = (history.getLast?).map Msg.id :=
  ⟨rfl, rfl⟩

/-- Claim C9, witness: a limit of 100, far outside the schema bound
[1, 20], is forwarded unchanged to the fetch. -/
theorem tool_limit_forwarded_unchecked_witness :
    (processGetMessages [] [] 100).2.limit = 100
      ∧ (processGetMessages [] [] 100).2.before = ((List.nil).getLast?).map Msg.id :=
  tool_limit_forwarded_unchecked [] [] 100 (Or.inr (by decide))

/-- Claim C10: an empty terminal answer produces zero chunks and zero
dispatched messages — not even an empty reply — both at the chunking
level and across a full run whose completion response carries empty
output text. -/
theorem empty_answer_sends_nothing :
    chunkList [] = []
      ∧ dispatchAnswer [] = (⟨[], []⟩ : Dispatch)
      ∧ (runLoop (fun _ => .ok ⟨[], []⟩) [] "gpt-5-nano" []).replies = []
      ∧ (runLoop (fun _ => .ok ⟨[], []⟩) [] "gpt-5-nano" []).sends = [] := by
  refine ⟨rfl, rfl, by decide, by decide⟩

end DiscordGPT
